import Mathlib

/-
Verification of the `simple` package: a strict io.Reader wrapper.

The embedding models the three pieces of the repository:
  * `Simple.Reader` with its `Read` and `Err` methods (reader.go),
  * the package-level helper `Simple.Read` that right-sizes a buffer (reader.go),
  * the loose-contract test double `basic` with its `Read` method.

Errors are modelled by `GoError` (with `Option GoError` standing for Go's
nullable `error`); an io.Reader ("Source") is modelled as a state-transition
function that, given its current state and the length of the destination
buffer, returns its new state, the bytes written, and an error.  The byte
count `n` returned by a Go `Read` is the length of the byte list produced.
Go byte slices (with their length/capacity/nil-ness distinction) are
modelled by `GoSlice`.
-/

namespace Simple

/-- Bytes are modelled as natural numbers (values 0..255 in practice;
no arithmetic is performed on them, they are only copied). -/
abbrev Byte := Nat

/-- Go error values: `io.EOF`, `io.ErrUnexpectedEOF`, and opaque
transport errors (never inspected by the code under verification). -/
inductive GoError where
  | eof
  | errUnexpectedEOF
  | other (code : Nat)
deriving DecidableEq, Repr

/-- A Source (io.Reader): from a state and a destination-buffer length,
produce the new state, the bytes written into the buffer, and an error.
The Go return value `n` is the length of the byte list. -/
abbrev Src (σ : Type) := σ → Nat → σ × List Byte × Option GoError

/-- Reader wraps a Source state and holds at most one pending error
(the Go struct `Reader { err error; r io.Reader }`; the pure transition
function of the wrapped io.Reader is passed separately to `Reader.Read`). -/
structure Reader (σ : Type) where
  err : Option GoError
  r : σ
deriving DecidableEq, Repr

/-- NewReader wraps a source state with an empty pending-error slot. -/
def NewReader (s : σ) : Reader σ :=
  { err := none, r := s }

/-- Err returns, then discards, any stored error
(`err, r.err = r.err, nil; return err`). -/
def Reader.Err (rd : Reader σ) : Reader σ × Option GoError :=
  ({ rd with err := none }, rd.err)

/-- Read models `func (r *Reader) Read(p []byte) (n int, err error)`:
if an error is stored, return `(0, r.Err())` without touching the source;
otherwise call the source, and if it returned data together with an error,
store the error and report none. -/
def Reader.Read (src : Src σ) (rd : Reader σ) (plen : Nat) :
    Reader σ × List Byte × Option GoError :=
  match rd.err with
  | some _ =>
    let (rd2, e) := rd.Err
    (rd2, [], e)
  | none =>
    let (s2, d, e) := src rd.r plen
    if d.length ≠ 0 ∧ e ≠ none then
      ({ err := e, r := s2 }, d, none)
    else
      ({ err := none, r := s2 }, d, e)

/-- Run a sequence of wrapper reads with the given buffer lengths,
collecting each call's returned data and error. -/
def Reader.run (src : Src σ) (rd : Reader σ) :
    List Nat → Reader σ × List (List Byte × Option GoError)
  | [] => (rd, [])
  | k :: ks =>
    let step := Reader.Read src rd k
    let rest := Reader.run src step.1 ks
    (rest.1, step.2 :: rest.2)

/-- Instrument an arbitrary source so that every byte list it produces is
appended to a log carried in the state.  The log records exactly the bytes
the underlying source produced, in order. -/
def logSrc (src : Src σ) : Src (σ × List (List Byte)) :=
  fun p k =>
    let (s2, d, e) := src p.1 k
    ((s2, p.2 ++ [d]), d, e)

/-- GoSlice models a Go byte slice: the backing array window from the
slice start through its capacity (`arr`, so `cap = arr.length`), the
current length, and whether the slice is nil. -/
structure GoSlice where
  isNil : Bool
  arr : List Byte
  len : Nat
deriving DecidableEq, Repr

/-- Read models `func Read(r io.Reader, p []byte) ([]byte, error)`:
grow `p` to its capacity, read once, write the returned bytes into the
buffer, and (when `p` is not nil) reslice to the bytes actually read. -/
def Read (src : Src σ) (s : σ) (p : GoSlice) : σ × GoSlice × Option GoError :=
  let p1 : GoSlice := { p with len := p.arr.length }
  let (s2, d, e) := src s p1.len
  let n := d.length
  let p2 : GoSlice := { p1 with arr := d ++ p1.arr.drop n }
  let p3 : GoSlice := if p2.isNil = false then { p2 with len := n } else p2
  (s2, p3, e)

/-- basic is a simple io.Reader: a byte slice that consumes itself as it
is read.  The pointer receiver `*basic` is modelled by `Option`, with
`none` standing for a nil pointer. -/
abbrev basic := List Byte

/-- NewBasic creates a basic reader holding the given bytes. -/
def NewBasic (s : List Byte) : basic := s

/-- Read models `func (b *basic) Read(p []byte) (n int, err error)`:
nil receiver gives `io.ErrUnexpectedEOF`; an exhausted sequence gives
sticky `io.EOF`; an empty buffer reads nothing; otherwise copy
`min len(p) len(*b)` bytes, and when the sequence is exhausted without
filling `p`, signal `io.EOF` in the same call. -/
def basic.Read (b : Option basic) (plen : Nat) :
    Option basic × List Byte × Option GoError :=
  match b with
  | none => (none, [], some .errUnexpectedEOF)
  | some bs =>
    if bs.length = 0 then
      (some bs, [], some .eof)
    else if plen = 0 then
      (some bs, [], none)
    else
      let n := min plen bs.length
      let d := bs.take n
      if plen ≤ bs.length then
        (some (bs.drop plen), d, none)
      else
        (some [], d, some .eof)

/-- The example content "Hello, World!" as bytes. -/
def hello : List Byte :=
  [72, 101, 108, 108, 111, 44, 32, 87, 111, 114, 108, 100, 33]

/-- The example content "Hello, World!" as bytes, split at 10:
"Hello, Wor" then "ld!". -/
def helloWor : List Byte :=
  [72, 101, 108, 108, 111, 44, 32, 87, 111, 114]

/-- The trailing bytes "ld!". -/
def ldBang : List Byte :=
  [108, 100, 33]

/- Helper lemmas describing each branch of `Reader.Read`. -/

/-- A read that finds a stored error returns it, clears the slot, and
leaves the source state alone. -/
lemma Reader.read_pending (src : Src σ) (rd : Reader σ) (k : Nat)
    (e : GoError) (h : rd.err = some e) :
    Reader.Read src rd k = (⟨none, rd.r⟩, [], some e) := by
  obtain ⟨re, rs⟩ := rd
  cases h
  rfl

/-- A read with an empty slot whose source returns data together with an
error stores the error and reports none. -/
lemma Reader.read_store (src : Src σ) (rd : Reader σ) (k : Nat)
    (s2 : σ) (d : List Byte) (e : GoError)
    (h : rd.err = none) (hsrc : src rd.r k = (s2, d, some e)) (hd : d ≠ []) :
    Reader.Read src rd k = (⟨some e, s2⟩, d, none) := by
  obtain ⟨re, rs⟩ := rd
  cases h
  simp only [Reader.Read] at *
  rw [hsrc]
  simp [hd]

/-- A read with an empty slot whose source does not return data and an
error simultaneously passes the pair through unchanged, slot still empty. -/
lemma Reader.read_pass (src : Src σ) (rd : Reader σ) (k : Nat)
    (s2 : σ) (d : List Byte) (e : Option GoError)
    (h : rd.err = none) (hsrc : src rd.r k = (s2, d, e))
    (hde : d = [] ∨ e = none) :
    Reader.Read src rd k = (⟨none, s2⟩, d, e) := by
  obtain ⟨re, rs⟩ := rd
  cases h
  simp only [Reader.Read] at *
  rw [hsrc]
  rcases hde with hd | he
  · simp [hd]
  · simp [he]

/-- C1: for every wrapped source and every reader state (hence every
sequence of calls), if a call to the wrapper's Read returns data
(`n > 0`), then that same call's error is nil. -/
theorem read_no_dual_signal (src : Src σ) (rd : Reader σ) (k : Nat)
    (h : (Reader.Read src rd k).2.1 ≠ []) :
    (Reader.Read src rd k).2.2 = none := by
  cases hre : rd.err with
  | some e =>
    rw [Reader.read_pending src rd k e hre] at h
    simp at h
  | none =>
    rcases hsrc : src rd.r k with ⟨s2, d, e⟩
    by_cases hd : d = []
    · rw [Reader.read_pass src rd k s2 d e hre hsrc (Or.inl hd)] at h
      exact absurd hd h
    · cases e with
      | none => rw [Reader.read_pass src rd k s2 d none hre hsrc (Or.inr rfl)]
      | some e0 => rw [Reader.read_store src rd k s2 d e0 hre hsrc hd]

/-- Witness for C1 at a concrete input: a wrapper over the basic source
holding "Hello, World!" returns data on its first read, so its error
slot of that call is nil. -/
theorem read_no_dual_signal_witness :
    (Reader.Read basic.Read (NewReader (some hello)) 3).2.2 = none :=
  read_no_dual_signal basic.Read (NewReader (some hello)) 3 (by decide)

/-- C4: a Read that finds the pending-error slot occupied returns
`(0, storedError)`, clears the slot, leaves the source state untouched,
and does not invoke the source at all: the result is the same for every
source function. -/
theorem pending_error_short_circuits (src src2 : Src σ) (rd : Reader σ)
    (k : Nat) (e : GoError) (h : rd.err = some e) :
    Reader.Read src rd k = (⟨none, rd.r⟩, [], some e) ∧
    Reader.Read src2 rd k = Reader.Read src rd k := by
  refine ⟨Reader.read_pending src rd k e h, ?_⟩
  rw [Reader.read_pending src rd k e h, Reader.read_pending src2 rd k e h]

/-- Witness for C4 at a concrete input: a reader with a stored EOF and
the basic source over "Hello, World!"; a source that would return
nothing gives the same result, since neither is invoked. -/
theorem pending_error_short_circuits_witness :
    Reader.Read basic.Read ⟨some .eof, some hello⟩ 10 =
        (⟨none, some hello⟩, [], some .eof) ∧
    Reader.Read (fun s _ => (s, [], none)) ⟨some .eof, some hello⟩ 10 =
        Reader.Read basic.Read ⟨some .eof, some hello⟩ 10 :=
  pending_error_short_circuits basic.Read (fun s _ => (s, [], none))
    ⟨some .eof, some hello⟩ 10 .eof rfl

/-- C5: when the slot is empty at entry and the source returns `n ≠ 0`
together with a non-nil error, the wrapper stores that exact error and
returns `(n, nil)`; in every other case the pair from the source is
returned unchanged and the slot stays empty. -/
theorem store_or_passthrough (src : Src σ) (rd : Reader σ) (k : Nat)
    (s2 : σ) (d : List Byte) (e : Option GoError)
    (h : rd.err = none) (hsrc : src rd.r k = (s2, d, e)) :
    (d ≠ [] ∧ e ≠ none → Reader.Read src rd k = (⟨e, s2⟩, d, none)) ∧
    (¬(d ≠ [] ∧ e ≠ none) → Reader.Read src rd k = (⟨none, s2⟩, d, e)) := by
  constructor
  · rintro ⟨hd, he⟩
    cases e with
    | none => exact absurd rfl he
    | some e0 => exact Reader.read_store src rd k s2 d e0 h hsrc hd
  · intro hn
    rcases not_and_or.mp hn with hd | he
    · exact Reader.read_pass src rd k s2 d e h hsrc (Or.inl (not_not.mp hd))
    · exact Reader.read_pass src rd k s2 d e h hsrc (Or.inr (not_not.mp he))

/-- Witness for C5 at a concrete input: the basic source over "ld!" read
with a buffer of 10 returns 3 bytes together with EOF, which the wrapper
stores, returning the data with no error. -/
theorem store_or_passthrough_witness :
    (ldBang ≠ [] ∧ (some GoError.eof : Option GoError) ≠ none →
      Reader.Read basic.Read ⟨none, some ldBang⟩ 10 =
        (⟨some .eof, some []⟩, ldBang, none)) ∧
    (¬(ldBang ≠ [] ∧ (some GoError.eof : Option GoError) ≠ none) →
      Reader.Read basic.Read ⟨none, some ldBang⟩ 10 =
        (⟨none, some []⟩, ldBang, some .eof)) :=
  store_or_passthrough basic.Read ⟨none, some ldBang⟩ 10 (some [])
    ldBang (some .eof) rfl rfl

/-- C6: Err returns whatever was stored (nil when nothing is pending, so
it is always safe to call) and clears the slot in the same step; hence a
second Err with no intervening Read always yields nil. -/
theorem err_drain_idempotent (rd : Reader σ) :
    Reader.Err rd = (⟨none, rd.r⟩, rd.err) ∧
    (Reader.Err (Reader.Err rd).1).2 = none := by
  exact ⟨rfl, rfl⟩

/-- C8 counterexample: in the state where the basic source's sequence is
already exhausted, a read with an empty destination buffer does NOT
return `(0, nil)` — the sticky-EOF check fires first and returns
`(0, io.EOF)`. -/
theorem empty_buffer_claim_cex :
    ¬ (basic.Read (some (NewBasic [])) 0 =
        (some (NewBasic []), [], none)) := by
  decide

/-- C8 amended: for every basic source state holding a NON-EMPTY byte
sequence (through a non-nil receiver), a read with an empty destination
buffer returns `(0, nil)` and leaves the sequence untouched. -/
theorem empty_buffer_passthrough (bs : List Byte) (h : bs ≠ []) :
    basic.Read (some bs) 0 = (some bs, [], none) := by
  simp [basic.Read, h]

/-- Witness for the amended C8 at a concrete input: the basic source
over "Hello, World!" with an empty buffer. -/
theorem empty_buffer_passthrough_witness :
    basic.Read (some hello) 0 = (some hello, [], none) :=
  empty_buffer_passthrough hello (by decide)

/-- C9 (Scenario A): wrapping the basic source holding "Hello, World!"
and reading three times with a buffer of length 10 yields exactly
"Hello, Wor" with nil error, then "ld!" with nil error, then no bytes
with EOF. -/
theorem scenario_hello_world :
    Reader.run basic.Read (NewReader (some (NewBasic hello))) [10, 10, 10] =
      (⟨none, some []⟩,
       [(helloWor, none), (ldBang, none), ([], some .eof)]) := by
  decide

/-- C10: calling the basic source's Read through a nil receiver returns
`(0, io.ErrUnexpectedEOF)` for every buffer length — in particular it is
not EOF. -/
theorem nil_basic_unexpected_eof (k : Nat) :
    basic.Read none k = (none, [], some .errUnexpectedEOF) ∧
    (basic.Read none k).2.2 ≠ some .eof := by
  exact ⟨rfl, by simp [basic.Read]⟩

/-- Running the wrapper over a log-instrumented source: the bytes the
source has produced by the end of the run are the bytes it had produced
at the start followed by everything the wrapper returned during the run.
Every byte list the source produces is handed to the caller in the very
call that produced it (possibly alongside a deferred error). -/
lemma run_log_flatten (src : Src σ) (ks : List Nat) :
    ∀ rd : Reader (σ × List (List Byte)),
      ((Reader.run (logSrc src) rd ks).1.r.2).flatten =
        rd.r.2.flatten ++
          (((Reader.run (logSrc src) rd ks).2).map Prod.fst).flatten := by
  induction ks with
  | nil =>
    intro rd
    simp [Reader.run]
  | cons k ks ih =>
    intro rd
    cases hre : rd.err with
    | some e =>
      have hr := Reader.read_pending (logSrc src) rd k e hre
      simp only [Reader.run, hr]
      rw [ih ⟨none, rd.r⟩]
      simp
    | none =>
      rcases hsrc : src rd.r.1 k with ⟨s2, d, e⟩
      have hls : logSrc src rd.r k = ((s2, rd.r.2 ++ [d]), d, e) := by
        simp [logSrc, hsrc]
      by_cases hcond : d ≠ [] ∧ e ≠ none
      · obtain ⟨hd, he⟩ := hcond
        cases e with
        | none => exact absurd rfl he
        | some e0 =>
          have hr := Reader.read_store (logSrc src) rd k
            (s2, rd.r.2 ++ [d]) d e0 hre hls hd
          simp only [Reader.run, hr]
          rw [ih ⟨some e0, (s2, rd.r.2 ++ [d])⟩]
          simp
      · have hde : d = [] ∨ e = none := by
          rcases not_and_or.mp hcond with h1 | h2
          exacts [Or.inl (not_not.mp h1), Or.inr (not_not.mp h2)]
        have hr := Reader.read_pass (logSrc src) rd k
          (s2, rd.r.2 ++ [d]) d e hre hls hde
        simp only [Reader.run, hr]
        rw [ih ⟨none, (s2, rd.r.2 ++ [d])⟩]
        simp

/-- C2: for every source, every initial source state, and every sequence
of buffer lengths, the concatenation of all byte results returned by the
wrapper, in call order, equals the concatenation of all bytes the
underlying (log-instrumented) source produced during the run: wrapping
never loses, duplicates, or reorders data. -/
theorem wrapper_no_loss (src : Src σ) (s0 : σ) (ks : List Nat) :
    (((Reader.run (logSrc src) (NewReader (s0, ([] : List (List Byte)))) ks).2).map
        Prod.fst).flatten =
      ((Reader.run (logSrc src) (NewReader (s0, [])) ks).1.r.2).flatten := by
  have h := run_log_flatten src ks (NewReader (s0, []))
  simp only [NewReader] at h
  simpa using h.symm

/-- C3: an error from the source is delivered exactly once.  When the
slot is empty and the source reports error `e`: if it produced no data,
the same call returns `(0, e)` and nothing is stored; if it produced
data, the call returns the data with nil error, and the next Read (for
any buffer length, without invoking the source) — or equally a call to
Err — returns `e` and clears the slot, so the stored error cannot be
delivered twice. -/
theorem error_delivered_exactly_once (src : Src σ) (rd : Reader σ)
    (k k2 : Nat) (s2 : σ) (d : List Byte) (e : GoError)
    (h : rd.err = none) (hsrc : src rd.r k = (s2, d, some e)) :
    (d = [] → Reader.Read src rd k = (⟨none, s2⟩, [], some e)) ∧
    (d ≠ [] →
      Reader.Read src rd k = (⟨some e, s2⟩, d, none) ∧
      Reader.Read src ⟨some e, s2⟩ k2 = (⟨none, s2⟩, [], some e) ∧
      Reader.Err (⟨some e, s2⟩ : Reader σ) = (⟨none, s2⟩, some e)) := by
  constructor
  · intro hd
    subst hd
    exact Reader.read_pass src rd k s2 [] (some e) h hsrc (Or.inl rfl)
  · intro hd
    refine ⟨Reader.read_store src rd k s2 d e h hsrc hd, ?_, rfl⟩
    exact Reader.read_pending src ⟨some e, s2⟩ k2 e rfl

/-- Witness for C3 at a concrete input: the basic source over "ld!" read
with a buffer of 10 produces 3 bytes together with EOF; the EOF is
delivered by the following Read (or Err) and then cleared. -/
theorem error_delivered_exactly_once_witness :
    (ldBang = [] → Reader.Read basic.Read ⟨none, some ldBang⟩ 10 =
        (⟨none, some []⟩, [], some .eof)) ∧
    (ldBang ≠ [] →
      Reader.Read basic.Read ⟨none, some ldBang⟩ 10 =
        (⟨some .eof, some []⟩, ldBang, none) ∧
      Reader.Read basic.Read ⟨some .eof, some []⟩ 7 =
        (⟨none, some []⟩, [], some .eof) ∧
      Reader.Err (⟨some .eof, some []⟩ : Reader (Option basic)) =
        (⟨none, some []⟩, some .eof)) :=
  error_delivered_exactly_once basic.Read ⟨none, some ldBang⟩ 10 7
    (some []) ldBang .eof rfl rfl

/-- C7: the helper Read returns a slice whose length is exactly the byte
count reported by the (single) source call made at the buffer's full
capacity, and a nil buffer stays nil.  The hypotheses record the
io.Reader contract `n ≤ len(p)` and that a nil Go slice has zero
capacity. -/
theorem read_helper_rightsizes (src : Src σ) (s : σ) (p : GoSlice)
    (hwf : (src s p.arr.length).2.1.length ≤ p.arr.length)
    (hnil : p.isNil = true → p.arr = []) :
    ((Read src s p).2.1).len = (src s p.arr.length).2.1.length ∧
    ((Read src s p).2.1).isNil = p.isNil := by
  rcases hsrc : src s p.arr.length with ⟨s2, d, e⟩
  rw [hsrc] at hwf
  cases hn : p.isNil
  · simp [Read, hsrc, hn]
  · have harr := hnil hn
    rw [harr] at hsrc hwf
    simp only [List.length_nil, Nat.le_zero, List.length_eq_zero] at hwf
    subst hwf
    simp [Read, hsrc, hn, harr]

/-- Witness for C7 at a concrete input: a non-nil buffer of length 2 and
capacity 4 over the basic source holding "Hello, World!"; the returned
slice has length 4, the count reported by the read at full capacity. -/
theorem read_helper_rightsizes_witness :
    ((Read basic.Read (some hello) ⟨false, [0, 0, 0, 0], 2⟩).2.1).len =
        (basic.Read (some hello) 4).2.1.length ∧
    ((Read basic.Read (some hello) ⟨false, [0, 0, 0, 0], 2⟩).2.1).isNil =
        false :=
  read_helper_rightsizes basic.Read (some hello) ⟨false, [0, 0, 0, 0], 2⟩
    (by decide) (by decide)

end Simple
